import Mathlib

/-!
Verification of the kinect-skeleton-tracking data scripts.

We shallowly embed the dataframe computations of the repository's data
scripts:

* `data/calculate-joint-displacements.py` (namespace `CalcJoint`)
* `data/extract-response-joint-displacements.py` (namespace `Aligner`)
* `data/extract-task-switching-skeleton-summary.py` (namespace `Summary`)
* `src/fix-utctimestamps.py` (namespace `FixTs`)

Timestamps and coordinates are modelled as rationals (the scripts only
compare, subtract, and scale them); Euclidean distances live in `ℝ`
through `Real.sqrt`.  Dataframes are lists of structures; a pandas
label-indexed frame is a list of label-carrying rows.
-/

set_option autoImplicit false

/-- A 3-d point: the x, y, z columns of one joint in one sample row. -/
structure Pt3 where
  x : ℚ
  y : ℚ
  z : ℚ
deriving DecidableEq, Repr

/-- Embeds `np.sqrt((prevX-currX)**2.0 + (prevY-currY)**2.0 + (prevZ-currZ)**2.0)`:
the Euclidean distance between two sampled joint positions. -/
noncomputable def dist3 (p c : Pt3) : ℝ :=
  Real.sqrt (((p.x : ℝ) - (c.x : ℝ)) ^ 2 + ((p.y : ℝ) - (c.y : ℝ)) ^ 2
    + ((p.z : ℝ) - (c.z : ℝ)) ^ 2)

/-- The per-consecutive-pair Euclidean displacement series of a list of
positions, written by direct recursion over consecutive pairs.  This is the
specification-side description of "displacement between each successive
measurement"; the scripts build the same series through an index-shifted
merge, and we prove the two agree. -/
noncomputable def consecDists : List Pt3 → List ℝ
  | [] => []
  | [_] => []
  | a :: b :: rest => dist3 a b :: consecDists (b :: rest)

/-- Embeds `series.mean()` over a list of reals: sum divided by length. -/
noncomputable def listMean (xs : List ℝ) : ℝ :=
  xs.sum / xs.length

namespace CalcJoint

/-!
Embedding of `data/calculate-joint-displacements.py`.
-/

/-- The 15 tracked joints of `joint_list`. -/
inductive Joint where
  | jointHead
  | jointNeck
  | jointLeftShoulder
  | jointRightShoulder
  | jointLeftElbow
  | jointRightElbow
  | jointLeftHand
  | jointRightHand
  | jointTorso
  | jointLeftHip
  | jointRightHip
  | jointLeftKnee
  | jointRightKnee
  | jointLeftFoot
  | jointRightFoot
deriving DecidableEq, Repr

/-- One raw kinect sample row: a `userId` column and the x/y/z position
columns of each of the 15 joints. -/
structure RawSample where
  userId : ℕ
  pos : Joint → Pt3

/-- A row of the processed frame: the pandas integer label, the `userId`
and per-joint position columns, and the 15 `<joint>Displacement` columns.
In every column `none` models `np.NAN`: rows loaded from a file carry
`some` in every raw column, while a row created by a label-enlarging `loc`
assignment carries `none` in all of them. -/
structure LRow where
  label : ℕ
  userId : Option ℕ
  pos : Joint → Option Pt3
  disp : Joint → Option ℝ

/-- Embeds `calculate_euclidian_distance(prev, curr, joint)`: Euclidean distance
between the previous and current position of the named joint. -/
noncomputable def calculate_euclidian_distance (prev curr : RawSample) (joint : Joint) : ℝ :=
  dist3 (prev.pos joint) (curr.pos joint)

/-- Embeds `calculate_displacements(prev, curr)`: the dictionary mapping each
joint's displacement column to its computed displacement. -/
noncomputable def calculate_displacements (prev curr : RawSample) : Joint → ℝ :=
  fun joint => calculate_euclidian_distance prev curr joint

/-- Embeds the check `len(joint_df.userId.unique()) != 1`: the multi-user error check
(a diagnostic message is printed exactly when this is true). -/
def multiUserError (input : List RawSample) : Bool :=
  ((input.map RawSample.userId).dedup.length ≠ 1 : Bool)

/-- The frame as loaded by `read_csv`: rows carry the default integer index
`0, 1, 2, ...` and every displacement column is initialised to `np.NAN`. -/
def enumRows (input : List RawSample) : List LRow :=
  input.enum.map fun p => ⟨p.1, some p.2.userId, fun j => some (p.2.pos j), fun _ => none⟩

/-- Embeds `joint_df = joint_df[joint_df.userId == 1]` applied when multiple user
ids are detected: the surviving rows keep their original labels. -/
def retainedRows (input : List RawSample) : List LRow :=
  if multiUserError input then
    (enumRows input).filter fun r => r.userId = some 1
  else enumRows input

/-- Lifts `calculate_displacements` to frame rows, whose position columns
may hold `NaN`: NumPy arithmetic on a missing coordinate yields `NaN`, so
any missing coordinate gives a missing displacement.  The loop only ever
reads rows loaded from the file, where every coordinate is present and
this equals `some` of `calculate_displacements` on the recorded points. -/
noncomputable def frameDisplacements (prev curr : LRow) : Joint → Option ℝ :=
  fun j =>
    match prev.pos j, curr.pos j with
    | some p, some c => some (dist3 p c)
    | _, _ => none

/-- Embeds `joint_df.loc[label, displacement_columns] = values`: label-based
assignment of the displacement columns.  When the label is present every
row carrying it receives the assigned displacement columns; when it is
absent, pandas setting-with-enlargement appends a new row at the end of
the frame holding the assigned displacement columns and `NaN` in every
other column (`userId` and all positions `none`). -/
noncomputable def locSetDisp (rows : List LRow) (label : ℕ) (d : Joint → Option ℝ) : List LRow :=
  if rows.any fun r => decide (r.label = label) then
    rows.map fun r => if r.label = label then { r with disp := d } else r
  else
    rows ++ [⟨label, none, fun _ => none, d⟩]

/-- Body of the loop of `process_participant_joint_data`: filter multi-user files to the default
user id, then for `sample_idx` in `range(1, num_samples)` read rows
`sample_idx - 1` and `sample_idx` positionally (`iloc`) and write the
computed displacements at label `sample_idx` (`loc`).  The loop reads only
position columns, which the writes never touch, so positional reads come
from the pre-loop frame `rows` while the writes accumulate in `acc`.
`dispStep rows acc k` is the body of the loop at `sample_idx = k + 1`. -/
noncomputable def dispStep (rows acc : List LRow) (k : ℕ) : List LRow :=
  match rows.get? k, rows.get? (k + 1) with
  | some prev, some curr =>
      locSetDisp acc (k + 1) (frameDisplacements prev curr)
  | _, _ => acc

/-- Embeds `process_participant_joint_data`: load, filter multi-user files to the
default user id, then run the displacement loop for
`sample_idx in range(1, num_samples)`. -/
noncomputable def process_participant_joint_data (input : List RawSample) : List LRow :=
  let rows := retainedRows input
  let num_samples := rows.length
  (List.range (num_samples - 1)).foldl (dispStep rows) rows

end CalcJoint

namespace Aligner

/-!
Embedding of `data/extract-response-joint-displacements.py`.
-/

/-- One row of a participant's kinect joint frame, restricted to the columns
the aligner reads: `utcTime` (set by `get_joint_df` to
`utcMillisecondsSinceEpoch / 1000.0`) and the head and torso positions. -/
structure JointSample where
  utcTime : ℚ
  head : Pt3
  torso : Pt3
deriving DecidableEq, Repr

/-- One row of the PsychoPy response file as read from csv: participant id,
response `utcTime`, and `reactionTime` (`none` models a `pd.isnull` value). -/
structure RawResponse where
  participant : ℕ
  utcTime : ℚ
  reactionTime : Option ℚ
deriving DecidableEq, Repr

/-- A response row after the two displacement columns are added. -/
structure Response where
  participant : ℕ
  utcTime : ℚ
  reactionTime : Option ℚ
  jointHeadDisplacement : ℝ
  jointTorsoDisplacement : ℝ

/-- Lines 121--122: the two new columns initially hold `0.0`. -/
def initResponse (raw : RawResponse) : Response :=
  ⟨raw.participant, raw.utcTime, raw.reactionTime, 0, 0⟩

/-- Outcome of `get_joint_df`'s file lookup: whether the
`len(file_list) != 1` diagnostic fires, and the file obtained by
`file_list[0]` (`none` models the `IndexError` raised on an empty list). -/
structure GlobOutcome where
  errorMessage : Bool
  opened : Option String
deriving DecidableEq, Repr

/-- Lines 50--55 of `get_joint_df`: glob for the participant's file pattern,
print a diagnostic when the match is not unique, then unconditionally take
`file_list[0]`. -/
def get_joint_df_lookup (file_list : List String) : GlobOutcome :=
  ⟨file_list.length != 1, file_list.get? 0⟩

/-- Lines 142--146: the window start.  A null reaction time uses the timeout
fallback `response_time - 2.5`; otherwise
`response_time - reactionTime - 1.0`. -/
def responseStartTime (response_time : ℚ) (reactionTime : Option ℚ) : ℚ :=
  match reactionTime with
  | none => response_time - 5 / 2
  | some rt => response_time - rt - 1

/-- Line 149: `(joint_df.utcTime >= start_time) & (joint_df.utcTime <= response_time)`. -/
def windowSelect (joint_df : List JointSample) (start_time response_time : ℚ) :
    List JointSample :=
  joint_df.filter fun r =>
    decide (start_time ≤ r.utcTime) && decide (r.utcTime ≤ response_time)

/-- Lines 155--157: the merge of the selected frame with its own tail pairs
each selected row with the next one; the merged frame has one row per
consecutive pair. -/
def pairTable (sel : List JointSample) : List (JointSample × JointSample) :=
  sel.zip sel.tail

/-- Embeds `compute_distance_head` applied to a merged row: distance between the
current and next head positions. -/
noncomputable def compute_distance_head (pc : JointSample × JointSample) : ℝ :=
  dist3 pc.1.head pc.2.head

/-- Embeds `compute_distance_torso` applied to a merged row. -/
noncomputable def compute_distance_torso (pc : JointSample × JointSample) : ℝ :=
  dist3 pc.1.torso pc.2.torso

/-- The head aggregate written for a response:
`displacement_df.jointHeadDisplacement.mean()`. -/
noncomputable def headAggregate (joint_df : List JointSample) (resp : Response) : ℝ :=
  let sel := windowSelect joint_df
    (responseStartTime resp.utcTime resp.reactionTime) resp.utcTime
  listMean ((pairTable sel).map compute_distance_head)

/-- The torso aggregate written for a response. -/
noncomputable def torsoAggregate (joint_df : List JointSample) (resp : Response) : ℝ :=
  let sel := windowSelect joint_df
    (responseStartTime resp.utcTime resp.reactionTime) resp.utcTime
  listMean ((pairTable sel).map compute_distance_torso)

/-- Lines 138--171, the body of the per-response loop: build the window,
merge-shift it, and if the merged frame is non-empty write the two mean
displacements onto every response row whose `utcTime` equals this
response's `utcTime` (`response_df.loc[response_df.utcTime == response_time, ...]`).
An empty merged frame only prints a message and writes nothing. -/
noncomputable def processResponse (joint_df : List JointSample) (resp : Response)
    (table : List Response) : List Response :=
  let response_time := resp.utcTime
  let pairs := pairTable (windowSelect joint_df
    (responseStartTime response_time resp.reactionTime) response_time)
  if pairs.length = 0 then table
  else
    table.map fun r =>
      if r.utcTime = response_time then
        { r with jointHeadDisplacement := headAggregate joint_df resp,
                 jointTorsoDisplacement := torsoAggregate joint_df resp }
      else r

/-- Embeds `extract_response_joint_displacements`: initialise the displacement
columns to `0.0`, then process each response row in order.  `iterrows`
observes in-place updates, but the loop reads only the participant,
`utcTime` and `reactionTime` columns, which no write touches, so iterating
over the initial rows is exact; likewise `joint_df` is reloaded on every
participant change, so it always belongs to the current row's participant.
`alignStep` is one iteration of the response loop. -/
noncomputable def alignStep (getJoints : ℕ → List JointSample)
    (acc : List Response) (resp : Response) : List Response :=
  processResponse (getJoints resp.participant) resp acc

/-- The full alignment pass over the response table. -/
noncomputable def extract_response_joint_displacements
    (getJoints : ℕ → List JointSample) (raws : List RawResponse) : List Response :=
  let table := raws.map initResponse
  table.foldl (alignStep getJoints) table

/-- The update lines 170--171 perform on one masked response row: both
displacement columns receive the aggregates computed for `resp`. -/
noncomputable def overwrite (joint_df : List JointSample) (resp r : Response) : Response :=
  { r with jointHeadDisplacement := headAggregate joint_df resp,
           jointTorsoDisplacement := torsoAggregate joint_df resp }

/-- The response columns the alignment loop reads; no write of the pass
ever modifies them. -/
def keyOf (r : Response) : ℕ × ℚ × Option ℚ :=
  (r.participant, r.utcTime, r.reactionTime)

end Aligner

namespace Summary

/-!
Embedding of `data/extract-task-switching-skeleton-summary.py`.
-/

/-- One raw skeleton-tracking row, restricted to the columns the summary
script reads: the millisecond timestamp and the head and torso positions. -/
structure SkelRow where
  utcMillisecondsSinceEpoch : ℚ
  head : Pt3
  torso : Pt3
deriving DecidableEq, Repr

/-- The per-participant summary row assembled in `subject_dict` (timezone
localisation of the display dates is not modelled; the claim concerns the
displacement reductions). -/
structure SubjectSummary where
  subjectId : ℕ
  samples : ℕ
  startTime : Option ℚ
  endTime : Option ℚ
  minHeadDisplacement : Option ℝ
  maxHeadDisplacement : Option ℝ
  meanHeadDisplacement : Option ℝ
  minTorsoDisplacement : Option ℝ
  maxTorsoDisplacement : Option ℝ
  meanTorsoDisplacement : Option ℝ

/-- Embeds `series.min()` with pandas semantics on an all-numeric series: `none`
(`NaN`) for an empty series, otherwise the least element. -/
noncomputable def seriesMin : List ℝ → Option ℝ
  | [] => none
  | h :: t => some (t.foldl min h)

/-- Embeds `series.max()`. -/
noncomputable def seriesMax : List ℝ → Option ℝ
  | [] => none
  | h :: t => some (t.foldl max h)

/-- Embeds `series.mean()`: `none` (`NaN`) for an empty series, otherwise the sum
divided by the length. -/
noncomputable def seriesMean (xs : List ℝ) : Option ℝ :=
  if xs.length = 0 then none else some (xs.sum / xs.length)

/-- Lines 160--163: merge the frame with its own index-shifted head/torso
columns and apply `compute_distance_head` to each merged row. -/
noncomputable def headDisplacementSeries (rows : List SkelRow) : List ℝ :=
  (rows.zip rows.tail).map fun pc => dist3 pc.1.head pc.2.head

/-- Lines 160--164 for the torso column. -/
noncomputable def torsoDisplacementSeries (rows : List SkelRow) : List ℝ :=
  (rows.zip rows.tail).map fun pc => dist3 pc.1.torso pc.2.torso

/-- Lines 150--187: the summary row recorded for one participant file. -/
noncomputable def extract_subject_summary (subject_id : ℕ) (rows : List SkelRow) :
    SubjectSummary :=
  { subjectId := subject_id
    samples := rows.length
    startTime := (rows.get? 0).map SkelRow.utcMillisecondsSinceEpoch
    endTime := (rows.get? (rows.length - 1)).map SkelRow.utcMillisecondsSinceEpoch
    minHeadDisplacement := seriesMin (headDisplacementSeries rows)
    maxHeadDisplacement := seriesMax (headDisplacementSeries rows)
    meanHeadDisplacement := seriesMean (headDisplacementSeries rows)
    minTorsoDisplacement := seriesMin (torsoDisplacementSeries rows)
    maxTorsoDisplacement := seriesMax (torsoDisplacementSeries rows)
    meanTorsoDisplacement := seriesMean (torsoDisplacementSeries rows) }

end Summary

namespace FixTs

/-!
Embedding of `src/fix-utctimestamps.py`.
-/

/-- A csv table: a header of column names and rows of numeric cells. -/
structure Table where
  header : List String
  rows : List (List ℚ)
deriving DecidableEq, Repr

/-- The rename map of lines 37--40. -/
def renameCol (c : String) : String :=
  if c = "utcMillisecondsSinceEpoch" then "utcMicrosecondsSinceEpoch" else c

/-- Embeds `fix_utc_timestamps`: rename the millisecond column and multiply the
(now renamed) column's values by 1000; every other cell is untouched. -/
def fix_utc_timestamps (df : Table) : Table :=
  let header := df.header.map renameCol
  let idx := header.indexOf "utcMicrosecondsSinceEpoch"
  { header := header
    rows := df.rows.map fun r => r.set idx (r.getD idx 0 * 1000) }

end FixTs

/-!
## Concrete inputs used by counterexamples and witnesses
-/

/-- The head positions of the C4 test file: `(0,0,0)` in the first row and
`(3,4,0)` in the second; both rows belong to the single user 1. -/
def headTestPrev : CalcJoint.RawSample := ⟨1, fun _ => ⟨0, 0, 0⟩⟩

/-- Second row of the C4 test file. -/
def headTestCurr : CalcJoint.RawSample :=
  ⟨1, fun j => if j = CalcJoint.Joint.jointHead then ⟨3, 4, 0⟩ else ⟨0, 0, 0⟩⟩

/-- The two-row synthetic joint file of claim C4. -/
def headTestFile : List CalcJoint.RawSample := [headTestPrev, headTestCurr]

/-- The C5 failing input: a multi-user file whose first row belongs to user
2 and whose remaining two rows belong to the default user 1. -/
def c5File : List CalcJoint.RawSample :=
  [⟨2, fun _ => ⟨0, 0, 0⟩⟩, ⟨1, fun _ => ⟨0, 0, 0⟩⟩, ⟨1, fun _ => ⟨1, 0, 0⟩⟩]

/-- Witness for C7: a concrete two-user file. -/
def c7File : List CalcJoint.RawSample :=
  [⟨2, fun _ => ⟨0, 0, 0⟩⟩, ⟨1, fun _ => ⟨0, 0, 0⟩⟩]

/-- A multi-user file whose retained labels are 0 and 2, so the loop's
single write at label 1 hits an absent label and enlarges the frame. -/
def c7bFile : List CalcJoint.RawSample :=
  [⟨1, fun _ => ⟨0, 0, 0⟩⟩, ⟨2, fun _ => ⟨0, 0, 0⟩⟩, ⟨1, fun _ => ⟨1, 0, 0⟩⟩]

/-- The joint frame used by the C1 witness: three samples inside the
window of a response at `utcTime = 10` with reaction time 1. -/
def c1Joints : List Aligner.JointSample :=
  [⟨8, ⟨0, 0, 0⟩, ⟨0, 0, 0⟩⟩, ⟨9, ⟨3, 4, 0⟩, ⟨0, 0, 0⟩⟩, ⟨10, ⟨3, 4, 2⟩, ⟨1, 0, 0⟩⟩]

/-- The response row of the C1 witness. -/
def c1Resp : Aligner.Response := Aligner.initResponse ⟨1, 10, some 1⟩

/-- The C3 response row: participant 1 responds at `utcTime = 100` with
reaction time 1, so its window is `[98, 100]`. -/
def c3Raw : Aligner.RawResponse := ⟨1, 100, some 1⟩

/-- The C3 joint data: the participant's only sample lies at `utcTime = 0`,
outside every response window of `c3Raw`. -/
def c3Joints : ℕ → List Aligner.JointSample :=
  fun _ => [⟨0, ⟨0, 0, 0⟩, ⟨0, 0, 0⟩⟩]

/-- The C10 witness response table: two rows of *different* participants
sharing `utcTime = 10`. -/
def c10Raws : List Aligner.RawResponse := [⟨1, 10, some 1⟩, ⟨2, 10, some 1⟩]

/-- The C10 witness joint data: participant 2 (the last-processed row's
participant) has two samples inside the shared window, participant 1 has
two different ones. -/
def c10Joints : ℕ → List Aligner.JointSample := fun p =>
  if p = 2 then [⟨8, ⟨0, 0, 0⟩, ⟨0, 0, 0⟩⟩, ⟨9, ⟨1, 0, 0⟩, ⟨0, 1, 0⟩⟩]
  else [⟨9, ⟨5, 0, 0⟩, ⟨0, 0, 0⟩⟩, ⟨10, ⟨5, 1, 0⟩, ⟨2, 0, 0⟩⟩]

/-- The last-processed response of the C10 witness table. -/
def c10W : Aligner.Response := Aligner.initResponse ⟨2, 10, some 1⟩

/-- A two-sample participant file for the C8 witness: the head moves from
the origin to `(3,4,0)`. -/
def c8Rows : List Summary.SkelRow :=
  [⟨0, ⟨0, 0, 0⟩, ⟨0, 0, 0⟩⟩, ⟨40, ⟨3, 4, 0⟩, ⟨0, 0, 0⟩⟩]

/-- A concrete two-column table for the C9 witness. -/
def c9Table : FixTs.Table :=
  ⟨["userId", "utcMillisecondsSinceEpoch"], [[1, 5], [2, 7]]⟩

/-!
## General lemmas
-/

/-- The index-shifted pairing used by the scripts (`merge` of a frame with
its own tail) produces exactly the consecutive-pair distance series. -/
theorem zip_tail_dists_eq_consecDists {α : Type} (f : α → Pt3) :
    ∀ l : List α,
      ((l.zip l.tail).map fun pc => dist3 (f pc.1) (f pc.2))
        = consecDists (l.map f)
  | [] => rfl
  | [_] => rfl
  | a :: b :: rest => by
    have ih := zip_tail_dists_eq_consecDists f (b :: rest)
    simp only [List.tail_cons] at ih
    simp only [List.map_cons, List.tail_cons, List.zip_cons_cons, consecDists]
    exact congrArg (List.cons (dist3 (f a) (f b))) ih

/-!
## Claims C4, C5, C7

The per-sample displacement calculator.
-/

/-- Writing displacement columns never introduces a row of another user:
updated rows keep their `userId`, and a row appended by enlargement has a
`NaN` (`none`) `userId`. -/
theorem locSetDisp_userId (rows : List CalcJoint.LRow) (lbl : ℕ)
    (d : CalcJoint.Joint → Option ℝ)
    (h : ∀ r ∈ rows, ∀ u, r.userId = some u → u = 1) :
    ∀ r ∈ CalcJoint.locSetDisp rows lbl d, ∀ u, r.userId = some u → u = 1 := by
  intro r hr
  unfold CalcJoint.locSetDisp at hr
  split at hr
  · obtain ⟨a, ha, rfl⟩ := List.mem_map.mp hr
    split
    · exact h a ha
    · exact h a ha
  · rcases List.mem_append.mp hr with h1 | h2
    · exact h r h1
    · have hr2 : r = ⟨lbl, none, fun _ => none, d⟩ := by simpa using h2
      subst hr2
      intro u hu
      cases hu

/-- The displacement loop never introduces a row of another user either. -/
theorem foldl_dispStep_userId (rows : List CalcJoint.LRow) :
    ∀ (L : List ℕ) (acc : List CalcJoint.LRow),
      (∀ r ∈ acc, ∀ u, r.userId = some u → u = 1) →
      ∀ r ∈ L.foldl (CalcJoint.dispStep rows) acc, ∀ u, r.userId = some u → u = 1
  | [], _, hacc => hacc
  | k :: L, acc, hacc => by
    apply foldl_dispStep_userId rows L
    unfold CalcJoint.dispStep
    cases rows.get? k with
    | none => exact hacc
    | some prev =>
      cases rows.get? (k + 1) with
      | none => exact hacc
      | some curr => exact locSetDisp_userId acc (k + 1) _ hacc

/-- C4: for every pair of sample rows and every one of the 15 joints the
displacement calculator returns `sqrt(dx^2 + dy^2 + dz^2)` over that
joint's X/Y/Z columns, and on the two-row file whose head moves from
`(0,0,0)` to `(3,4,0)` the full pipeline computes `jointHeadDisplacement`
`5.0` on the second row (the first row's displacement is undefined). -/
theorem C4_euclidean_displacement :
    (∀ (prev curr : CalcJoint.RawSample) (j : CalcJoint.Joint),
      CalcJoint.calculate_displacements prev curr j
        = Real.sqrt ((((prev.pos j).x : ℝ) - ((curr.pos j).x : ℝ)) ^ 2
            + (((prev.pos j).y : ℝ) - ((curr.pos j).y : ℝ)) ^ 2
            + (((prev.pos j).z : ℝ) - ((curr.pos j).z : ℝ)) ^ 2))
    ∧ (CalcJoint.process_participant_joint_data headTestFile).map
        (fun r => r.disp CalcJoint.Joint.jointHead) = [none, some 5] := by
  constructor
  · intro prev curr j
    rfl
  · have hlist : (CalcJoint.process_participant_joint_data headTestFile).map
        (fun r => r.disp CalcJoint.Joint.jointHead)
        = [none, some (dist3 ⟨0, 0, 0⟩ ⟨3, 4, 0⟩)] := rfl
    have h5 : dist3 ⟨0, 0, 0⟩ ⟨3, 4, 0⟩ = 5 := by
      show Real.sqrt _ = 5
      rw [show (((((0 : ℚ) : ℝ)) - ((3 : ℚ) : ℝ)) ^ 2
          + ((((0 : ℚ) : ℝ)) - ((4 : ℚ) : ℝ)) ^ 2
          + ((((0 : ℚ) : ℝ)) - ((0 : ℚ) : ℝ)) ^ 2) = 5 ^ 2 by norm_num]
      exact Real.sqrt_sq (by norm_num)
    rw [hlist, h5]

/-- C5: the claim says the first output row always has a missing value in
every displacement column while every later row is defined.  On `c5File`
the multi-user filter keeps the rows labelled 1 and 2, and the loop's
label-based write `joint_df.loc[1, ...]` then lands on the *first* retained
row: the output's first row carries a defined head displacement and its
last row carries none --- the opposite of the claim on both counts. -/
theorem C5_first_row_defined :
    (CalcJoint.process_participant_joint_data c5File).map
      (fun r => ((r.disp CalcJoint.Joint.jointHead).isSome, r.label))
      = [(true, 1), (false, 2)] := rfl

/-- Evaluating the embedding on `c7bFile` (userId column `[1, 2, 1]`)
exercises the enlargement branch: the filtered frame keeps labels 0 and 2,
the write at the absent label 1 appends a row whose `userId` and positions
are `NaN`, and no retained row receives a displacement. -/
theorem process_absent_label_enlarges :
    (CalcJoint.process_participant_joint_data c7bFile).map
      (fun r => (r.label, r.userId, (r.disp CalcJoint.Joint.jointHead).isSome))
      = [(0, some 1, false), (2, some 1, false), (1, none, true)] := rfl

/-- C7: when a joint file contains more than one distinct `userId`, the
calculator's diagnostic fires and the frame the displacement loop operates
on is exactly the rows whose `userId` is the default id 1; every row of
any other user id is excluded from the displacement computation, so no row
of the processed output carries any user id other than 1 (a row appended
by a label-enlarging write carries a `NaN` user id, not another user's). -/
theorem C7_multi_user_filter (input : List CalcJoint.RawSample)
    (h : 2 ≤ ((input.map CalcJoint.RawSample.userId).dedup).length) :
    CalcJoint.multiUserError input = true
    ∧ (∀ r : CalcJoint.LRow, r ∈ CalcJoint.retainedRows input ↔
        r ∈ CalcJoint.enumRows input ∧ r.userId = some 1)
    ∧ (∀ r ∈ CalcJoint.process_participant_joint_data input,
        ∀ u, r.userId = some u → u = 1) := by
  have herr : CalcJoint.multiUserError input = true := by
    simp only [CalcJoint.multiUserError, decide_eq_true_eq]
    omega
  have hret : ∀ r : CalcJoint.LRow, r ∈ CalcJoint.retainedRows input ↔
      r ∈ CalcJoint.enumRows input ∧ r.userId = some 1 := by
    intro r
    simp [CalcJoint.retainedRows, herr, List.mem_filter]
  refine ⟨herr, hret, ?_⟩
  intro r hr
  refine foldl_dispStep_userId (CalcJoint.retainedRows input) _ _ ?_ r hr
  intro a ha u hu
  rw [((hret a).mp ha).2] at hu
  exact (Option.some.inj hu).symm

/-- C7 witness: the hypothesis holds on `c7File` and the theorem applies. -/
theorem C7_multi_user_filter_witness :
    2 ≤ ((c7File.map CalcJoint.RawSample.userId).dedup).length
    ∧ (CalcJoint.multiUserError c7File = true
      ∧ (∀ r : CalcJoint.LRow, r ∈ CalcJoint.retainedRows c7File ↔
          r ∈ CalcJoint.enumRows c7File ∧ r.userId = some 1)
      ∧ (∀ r ∈ CalcJoint.process_participant_joint_data c7File,
          ∀ u, r.userId = some u → u = 1)) :=
  ⟨by decide, C7_multi_user_filter c7File (by decide)⟩

/-!
## Claim C8

The per-participant summary reductions.
-/

/-- A left fold of `min` lands on one of the folded elements. -/
theorem foldl_min_mem {α : Type} [LinearOrder α] (h : α) (t : List α) :
    t.foldl min h ∈ h :: t := by
  induction t generalizing h with
  | nil => simp
  | cons a t ih =>
    have hmem := ih (min h a)
    simp only [List.foldl_cons]
    rcases List.mem_cons.mp hmem with he | ht
    · rcases min_choice h a with hc | hc
      · rw [he, hc]; exact List.mem_cons_self _ _
      · rw [he, hc]; exact List.mem_cons_of_mem _ (List.mem_cons_self _ _)
    · exact List.mem_cons_of_mem _ (List.mem_cons_of_mem _ ht)

/-- A left fold of `min` bounds every folded element from below. -/
theorem foldl_min_le {α : Type} [LinearOrder α] (h : α) (t : List α) :
    ∀ x ∈ h :: t, t.foldl min h ≤ x := by
  induction t generalizing h with
  | nil =>
    intro x hx
    rcases List.mem_cons.mp hx with rfl | hx'
    · exact le_refl x
    · exact absurd hx' (List.not_mem_nil x)
  | cons a t ih =>
    intro x hx
    simp only [List.foldl_cons]
    rcases List.mem_cons.mp hx with he | hx'
    · rw [he]
      exact le_trans (ih (min h a) _ (List.mem_cons_self _ _)) (min_le_left _ _)
    · rcases List.mem_cons.mp hx' with he | hx''
      · rw [he]
        exact le_trans (ih (min h a) _ (List.mem_cons_self _ _)) (min_le_right _ _)
      · exact ih (min h a) x (List.mem_cons_of_mem _ hx'')

/-- A left fold of `max` lands on one of the folded elements. -/
theorem foldl_max_mem {α : Type} [LinearOrder α] (h : α) (t : List α) :
    t.foldl max h ∈ h :: t := by
  induction t generalizing h with
  | nil => simp
  | cons a t ih =>
    have hmem := ih (max h a)
    simp only [List.foldl_cons]
    rcases List.mem_cons.mp hmem with he | ht
    · rcases max_choice h a with hc | hc
      · rw [he, hc]; exact List.mem_cons_self _ _
      · rw [he, hc]; exact List.mem_cons_of_mem _ (List.mem_cons_self _ _)
    · exact List.mem_cons_of_mem _ (List.mem_cons_of_mem _ ht)

/-- A left fold of `max` bounds every folded element from above. -/
theorem le_foldl_max {α : Type} [LinearOrder α] (h : α) (t : List α) :
    ∀ x ∈ h :: t, x ≤ t.foldl max h := by
  induction t generalizing h with
  | nil =>
    intro x hx
    rcases List.mem_cons.mp hx with rfl | hx'
    · exact le_refl x
    · exact absurd hx' (List.not_mem_nil x)
  | cons a t ih =>
    intro x hx
    simp only [List.foldl_cons]
    rcases List.mem_cons.mp hx with he | hx'
    · rw [he]
      exact le_trans (le_max_left _ _) (ih (max h a) _ (List.mem_cons_self _ _))
    · rcases List.mem_cons.mp hx' with he | hx''
      · rw [he]
        exact le_trans (le_max_right _ _) (ih (max h a) _ (List.mem_cons_self _ _))
      · exact ih (max h a) x (List.mem_cons_of_mem _ hx'')

/-- C8: the min/max/mean head and torso displacements recorded in a
participant's summary row are the reductions of the per-consecutive-pair
displacement series of that file (`consecDists`, the directly computed
series): the six fields equal the series reductions, the recorded min is a
series element below every series element, the recorded max is a series
element above every series element, and the recorded mean is the series sum
divided by its length. -/
theorem C8_summary_reductions (subject_id : ℕ) (rows : List Summary.SkelRow) :
    ((Summary.extract_subject_summary subject_id rows).minHeadDisplacement
        = Summary.seriesMin (consecDists (rows.map Summary.SkelRow.head))
      ∧ (Summary.extract_subject_summary subject_id rows).maxHeadDisplacement
        = Summary.seriesMax (consecDists (rows.map Summary.SkelRow.head))
      ∧ (Summary.extract_subject_summary subject_id rows).meanHeadDisplacement
        = Summary.seriesMean (consecDists (rows.map Summary.SkelRow.head))
      ∧ (Summary.extract_subject_summary subject_id rows).minTorsoDisplacement
        = Summary.seriesMin (consecDists (rows.map Summary.SkelRow.torso))
      ∧ (Summary.extract_subject_summary subject_id rows).maxTorsoDisplacement
        = Summary.seriesMax (consecDists (rows.map Summary.SkelRow.torso))
      ∧ (Summary.extract_subject_summary subject_id rows).meanTorsoDisplacement
        = Summary.seriesMean (consecDists (rows.map Summary.SkelRow.torso)))
    ∧ (∀ xs : List ℝ, (∀ m, Summary.seriesMin xs = some m → m ∈ xs ∧ ∀ x ∈ xs, m ≤ x)
        ∧ (∀ m, Summary.seriesMax xs = some m → m ∈ xs ∧ ∀ x ∈ xs, x ≤ m)
        ∧ Summary.seriesMean xs
            = if xs.length = 0 then none else some (xs.sum / xs.length)) := by
  have hhead : Summary.headDisplacementSeries rows
      = consecDists (rows.map Summary.SkelRow.head) :=
    zip_tail_dists_eq_consecDists Summary.SkelRow.head rows
  have htorso : Summary.torsoDisplacementSeries rows
      = consecDists (rows.map Summary.SkelRow.torso) :=
    zip_tail_dists_eq_consecDists Summary.SkelRow.torso rows
  constructor
  · refine ⟨?_, ?_, ?_, ?_, ?_, ?_⟩ <;>
      simp only [Summary.extract_subject_summary, hhead, htorso]
  · intro xs
    refine ⟨?_, ?_, rfl⟩
    · intro m hm
      cases xs with
      | nil => simp [Summary.seriesMin] at hm
      | cons h t =>
        simp only [Summary.seriesMin, Option.some.injEq] at hm
        subst hm
        exact ⟨foldl_min_mem h t, foldl_min_le h t⟩
    · intro m hm
      cases xs with
      | nil => simp [Summary.seriesMax] at hm
      | cons h t =>
        simp only [Summary.seriesMax, Option.some.injEq] at hm
        subst hm
        exact ⟨foldl_max_mem h t, le_foldl_max h t⟩

/-!
## Claim C9

The one-time timestamp migration.
-/

/-- After the rename, the microsecond column sits exactly where the
millisecond column was: renaming moves no columns, so the name lookup of
the assignment resolves to the original column position. -/
theorem indexOf_map_renameCol (l : List String)
    (hmem : "utcMillisecondsSinceEpoch" ∈ l)
    (hnew : "utcMicrosecondsSinceEpoch" ∉ l) :
    (l.map FixTs.renameCol).indexOf "utcMicrosecondsSinceEpoch"
      = l.indexOf "utcMillisecondsSinceEpoch" := by
  induction l with
  | nil => cases hmem
  | cons c t ih =>
    by_cases hc : c = "utcMillisecondsSinceEpoch"
    · subst hc
      simp [FixTs.renameCol]
    · have hcm : c ≠ "utcMicrosecondsSinceEpoch" :=
        fun h => hnew (h ▸ List.mem_cons_self c t)
      have hmem' : "utcMillisecondsSinceEpoch" ∈ t := by
        rcases List.mem_cons.mp hmem with h | h
        · exact absurd h.symm hc
        · exact h
      have hnew' : "utcMicrosecondsSinceEpoch" ∉ t :=
        fun h => hnew (List.mem_cons_of_mem _ h)
      rw [List.map_cons, show FixTs.renameCol c = c from if_neg hc,
        List.indexOf_cons_ne _ hcm, List.indexOf_cons_ne _ hc, ih hmem' hnew']

/-- C9: on a table with a `utcMillisecondsSinceEpoch` column (and distinct
column names), the migration keeps the header length, renames exactly that
one column to `utcMicrosecondsSinceEpoch` in place, keeps the number and
order of rows, multiplies every value of that one column by 1000, and
leaves every other cell untouched. -/
theorem C9_fix_timestamps (df : FixTs.Table)
    (hmem : "utcMillisecondsSinceEpoch" ∈ df.header)
    (hnew : "utcMicrosecondsSinceEpoch" ∉ df.header)
    (hnodup : df.header.Nodup)
    (hrows : ∀ r ∈ df.rows, r.length = df.header.length) :
    ((FixTs.fix_utc_timestamps df).header.length = df.header.length
      ∧ (FixTs.fix_utc_timestamps df).header.get?
            (df.header.indexOf "utcMillisecondsSinceEpoch")
          = some "utcMicrosecondsSinceEpoch"
      ∧ ∀ k, k ≠ df.header.indexOf "utcMillisecondsSinceEpoch" →
          (FixTs.fix_utc_timestamps df).header.get? k = df.header.get? k)
    ∧ ((FixTs.fix_utc_timestamps df).rows.length = df.rows.length
      ∧ ∀ i r r', df.rows.get? i = some r →
          (FixTs.fix_utc_timestamps df).rows.get? i = some r' →
          (r'.get? (df.header.indexOf "utcMillisecondsSinceEpoch")
              = (r.get? (df.header.indexOf "utcMillisecondsSinceEpoch")).map
                  (fun v => v * 1000)
            ∧ ∀ k, k ≠ df.header.indexOf "utcMillisecondsSinceEpoch" →
                r'.get? k = r.get? k)) := by
  set j := df.header.indexOf "utcMillisecondsSinceEpoch" with hjdef
  have hj : j < df.header.length := List.indexOf_lt_length.mpr hmem
  have hidx : (df.header.map FixTs.renameCol).indexOf "utcMicrosecondsSinceEpoch" = j :=
    indexOf_map_renameCol df.header hmem hnew
  have hgetj : df.header.get? j = some "utcMillisecondsSinceEpoch" :=
    List.indexOf_get? hmem
  constructor
  · refine ⟨by simp [FixTs.fix_utc_timestamps], ?_, ?_⟩
    · show (df.header.map FixTs.renameCol).get? j = _
      rw [List.get?_map, hgetj]
      simp [FixTs.renameCol]
    · intro k hk
      show (df.header.map FixTs.renameCol).get? k = df.header.get? k
      rw [List.get?_map]
      cases hck : df.header.get? k with
      | none => rfl
      | some c =>
        have hcne : c ≠ "utcMillisecondsSinceEpoch" := by
          intro hcm
          subst hcm
          have hklt : k < df.header.length := by
            by_contra hge
            rw [List.get?_eq_none.mpr (le_of_not_lt hge)] at hck
            cases hck
          exact hk (List.get?_inj hklt hnodup (hck.trans hgetj.symm))
        simp [FixTs.renameCol, hcne]
  · refine ⟨by simp [FixTs.fix_utc_timestamps], ?_⟩
    intro i r r' hri hri'
    have hrlen : r.length = df.header.length := hrows r (List.get?_mem hri)
    have hjr : j < r.length := by rw [hrlen]; exact hj
    have hr' : r' = r.set j (r.getD j 0 * 1000) := by
      have : (FixTs.fix_utc_timestamps df).rows.get? i
          = some (r.set j (r.getD j 0 * 1000)) := by
        show (df.rows.map _).get? i = _
        rw [List.get?_map, hri]
        simp [hidx]
      rw [this] at hri'
      exact (Option.some.injEq _ _ ▸ hri').symm
    constructor
    · rw [hr']
      cases hvj : r.get? j with
      | none => exact absurd hvj (by simp [List.get?_eq_none, not_le, hjr])
      | some v =>
        have hgd : r.getD j 0 = v := by rw [List.getD_eq_get?, hvj]; rfl
        rw [List.get?_set_eq, hvj, hgd]
        rfl
    · intro k hk
      rw [hr', List.get?_set_ne _ _ (fun h => hk h.symm)]

/-!
## Claim C2

Window starts of the two reaction-time branches.
-/

/-- C2, counterexample: the claim asserts that for every recorded
`reactionTime` the recorded-reaction branch and the timeout-fallback branch
compute different window starts for the same `response_time`.  At
`reactionTime = 1.5` (exactly representable in binary floating point, so the
Python computation agrees) the two branches coincide:
`response_time - 1.5 - 1.0 = response_time - 2.5`. -/
theorem C2_start_time_counterexample :
    Aligner.responseStartTime 100 (some (3 / 2)) = Aligner.responseStartTime 100 none := by
  norm_num [Aligner.responseStartTime]

/-- C2, amended: for identical `response_time`, the recorded-reaction-time
branch and the timeout-fallback branch produce different `start_time` for
every recorded `reactionTime` except `reactionTime = 1.5`, where the two
coincide. -/
theorem C2_start_time_branches (t rt : ℚ) :
    Aligner.responseStartTime t (some rt) = Aligner.responseStartTime t none ↔ rt = 3 / 2 := by
  simp only [Aligner.responseStartTime]
  constructor
  · intro h; linarith
  · intro h; rw [h]; ring

/-!
## Claim C6

`get_joint_df`'s handling of a non-unique glob match.
-/

/-- C6, counterexample: the claim asserts the aligner never proceeds to
dereference a nonexistent file entry (it skips, or propagates a checked
`None`).  On a glob with zero matches the code prints its message and then
still executes `file_list[0]`: the lookup's `opened` component is `none`,
the model of the `IndexError` that access raises --- no skip and no
caller-checked `None` occurs. -/
theorem C6_glob_counterexample :
    Aligner.get_joint_df_lookup [] = ⟨true, none⟩ := rfl

/-- C6, amended: when the glob match is not unique the aligner prints a
message, and then unconditionally takes `file_list[0]`: with zero matches
that access fails (an `IndexError` terminating the script), and with
multiple matches the script simply proceeds with the first matched file;
it neither skips the participant nor propagates a checked `None`. -/
theorem C6_glob_behaviour (fl : List String) (f : String) (rest : List String) :
    ((Aligner.get_joint_df_lookup fl).errorMessage = true ↔ fl.length ≠ 1)
    ∧ ((Aligner.get_joint_df_lookup fl).opened = none ↔ fl = [])
    ∧ (Aligner.get_joint_df_lookup (f :: rest)).opened = some f := by
  refine ⟨?_, ?_, rfl⟩
  · simp [Aligner.get_joint_df_lookup]
  · cases fl <;> simp [Aligner.get_joint_df_lookup]

/-!
## Claims C1, C3, C10

The time-window response aligner.
-/

/-- A write step never changes the length of the response table. -/
theorem processResponse_length (j : List Aligner.JointSample) (resp : Aligner.Response)
    (T : List Aligner.Response) :
    (Aligner.processResponse j resp T).length = T.length := by
  unfold Aligner.processResponse
  dsimp only
  split
  · rfl
  · exact List.length_map _ _

/-- A response whose window selects no joint samples writes nothing: the
table passes through unchanged. -/
theorem processResponse_emptySelect (j : List Aligner.JointSample)
    (resp : Aligner.Response) (T : List Aligner.Response)
    (hsel : Aligner.windowSelect j
      (Aligner.responseStartTime resp.utcTime resp.reactionTime) resp.utcTime = []) :
    Aligner.processResponse j resp T = T := by
  unfold Aligner.processResponse
  dsimp only
  rw [hsel]
  rfl

/-- The alignment loop preserves the number of rows of the table. -/
theorem foldl_align_length (g : ℕ → List Aligner.JointSample) :
    ∀ (resps : List Aligner.Response) (acc : List Aligner.Response),
      (resps.foldl (Aligner.alignStep g) acc).length = acc.length
  | [], _ => rfl
  | resp :: rest, acc => by
    rw [List.foldl_cons, foldl_align_length g rest]
    exact processResponse_length (g resp.participant) resp acc

/-- When the merged window frame is non-empty, the row at each position of
the response table is overwritten iff its `utcTime` equals the processed
response's `utcTime`. -/
theorem processResponse_write (j : List Aligner.JointSample) (resp : Aligner.Response)
    (T : List Aligner.Response) (i : ℕ) (r : Aligner.Response)
    (hp : Aligner.pairTable (Aligner.windowSelect j
      (Aligner.responseStartTime resp.utcTime resp.reactionTime) resp.utcTime) ≠ [])
    (hr : T.get? i = some r) :
    (Aligner.processResponse j resp T).get? i
      = some (if r.utcTime = resp.utcTime then Aligner.overwrite j resp r else r) := by
  unfold Aligner.processResponse
  rw [if_neg (fun h => hp (List.length_eq_zero.mp h))]
  rw [List.get?_map, hr]
  rfl

/-- A row whose `utcTime` differs from the processed response's is left
untouched by the write step. -/
theorem processResponse_skip (j : List Aligner.JointSample) (resp : Aligner.Response)
    (T : List Aligner.Response) (i : ℕ) (r : Aligner.Response)
    (hr : T.get? i = some r) (hne : r.utcTime ≠ resp.utcTime) :
    (Aligner.processResponse j resp T).get? i = some r := by
  unfold Aligner.processResponse
  dsimp only
  split
  · exact hr
  · rw [List.get?_map, hr]
    simp [hne]

/-- A write step preserves the participant, `utcTime` and `reactionTime`
columns of every row. -/
theorem processResponse_key (j : List Aligner.JointSample) (resp : Aligner.Response)
    (T : List Aligner.Response) (i : ℕ) :
    ((Aligner.processResponse j resp T).get? i).map Aligner.keyOf
      = (T.get? i).map Aligner.keyOf := by
  unfold Aligner.processResponse
  dsimp only
  split
  · rfl
  · rw [List.get?_map]
    cases T.get? i with
    | none => rfl
    | some a =>
      simp only [Option.map_some']
      congr 1
      split <;> rfl

/-- The alignment loop preserves the participant, `utcTime` and
`reactionTime` columns of every row of the table. -/
theorem foldl_align_key (g : ℕ → List Aligner.JointSample) :
    ∀ (resps : List Aligner.Response) (acc : List Aligner.Response) (i : ℕ),
      ((resps.foldl (Aligner.alignStep g) acc).get? i).map Aligner.keyOf
        = (acc.get? i).map Aligner.keyOf
  | [], _, _ => rfl
  | resp :: rest, acc, i => by
    rw [List.foldl_cons]
    rw [foldl_align_key g rest _ i]
    exact processResponse_key (g resp.participant) resp acc i

/-- Rows whose `utcTime` is hit by no processed response are carried through
the alignment loop unchanged. -/
theorem foldl_align_untouched (g : ℕ → List Aligner.JointSample) (t : ℚ) :
    ∀ (resps : List Aligner.Response) (acc : List Aligner.Response),
      (∀ resp ∈ resps, resp.utcTime ≠ t) →
      ∀ i r, acc.get? i = some r → r.utcTime = t →
        (resps.foldl (Aligner.alignStep g) acc).get? i = some r
  | [], _, _, _, _, hr, _ => hr
  | resp :: rest, acc, hall, i, r, hr, hrt => by
    rw [List.foldl_cons]
    refine foldl_align_untouched g t rest _
      (fun x hx => hall x (List.mem_cons_of_mem _ hx)) i r ?_ hrt
    exact processResponse_skip (g resp.participant) resp acc i r hr
      (fun h => hall resp (List.mem_cons_self _ _) (h ▸ hrt))

/-- After the whole loop, every row sharing the `utcTime` of the
last-processed response with that timestamp (whose window produced a
non-empty merged frame) holds that response's aggregates. -/
theorem foldl_align_lastWriter (g : ℕ → List Aligner.JointSample) (t : ℚ) :
    ∀ (resps : List Aligner.Response) (acc : List Aligner.Response)
      (w : Aligner.Response),
      (resps.filter (fun r => decide (r.utcTime = t))).getLast? = some w →
      Aligner.pairTable (Aligner.windowSelect (g w.participant)
        (Aligner.responseStartTime w.utcTime w.reactionTime) w.utcTime) ≠ [] →
      ∀ i r, (resps.foldl (Aligner.alignStep g) acc).get? i = some r →
        r.utcTime = t →
        r.jointHeadDisplacement = Aligner.headAggregate (g w.participant) w
        ∧ r.jointTorsoDisplacement = Aligner.torsoAggregate (g w.participant) w := by
  intro resps
  induction resps with
  | nil => intro acc w hw; simp at hw
  | cons resp rest ih =>
    intro acc w hw hp i r hget hrt
    rw [List.foldl_cons] at hget
    by_cases hresp : resp.utcTime = t
    · rw [List.filter_cons, if_pos (by simpa using hresp)] at hw
      cases hrest : rest.filter (fun r => decide (r.utcTime = t)) with
      | cons x xs =>
        rw [hrest, List.getLast?_cons_cons] at hw
        exact ih _ w (by rw [hrest]; exact hw) hp i r hget hrt
      | nil =>
        rw [hrest, List.getLast?_singleton] at hw
        have hwr : w = resp := by
          have := hw
          injection this with h
          exact h.symm
        subst hwr
        have hrestne : ∀ x ∈ rest, x.utcTime ≠ t := by
          intro x hx
          have := List.filter_eq_nil_iff.mp hrest x hx
          simpa using this
        have hkey := foldl_align_key g rest (Aligner.alignStep g acc w) i
        rw [hget] at hkey
        cases hacc' : (Aligner.alignStep g acc w).get? i with
        | none => rw [hacc'] at hkey; simp at hkey
        | some r0 =>
          rw [hacc'] at hkey
          simp only [Option.map_some'] at hkey
          have hkeyeq : Aligner.keyOf r = Aligner.keyOf r0 := Option.some.inj hkey
          have hr0t : r0.utcTime = t := by
            have hx : r.utcTime = r0.utcTime :=
              congrArg (fun k => k.2.1) hkeyeq
            rw [← hx]; exact hrt
          have hfin := foldl_align_untouched g t rest _ hrestne i r0 hacc' hr0t
          rw [hget] at hfin
          have hrr0 : r = r0 := Option.some.inj hfin
          have hkey1 := processResponse_key (g w.participant) w acc i
          have hacc'p : (Aligner.processResponse (g w.participant) w acc).get? i
              = some r0 := hacc'
          rw [hacc'p] at hkey1
          cases hacc : acc.get? i with
          | none => rw [hacc] at hkey1; simp at hkey1
          | some a =>
            rw [hacc] at hkey1
            simp only [Option.map_some'] at hkey1
            have hkeyeq1 : Aligner.keyOf r0 = Aligner.keyOf a := Option.some.inj hkey1
            have hat : a.utcTime = w.utcTime := by
              have hx : r0.utcTime = a.utcTime :=
                congrArg (fun k => k.2.1) hkeyeq1
              rw [← hx, hr0t, hresp]
            have hwrt := processResponse_write (g w.participant) w acc i a hp hacc
            rw [hacc'p, if_pos hat] at hwrt
            have hr0a : r0 = Aligner.overwrite (g w.participant) w a :=
              Option.some.inj hwrt
            rw [hrr0, hr0a]
            exact ⟨rfl, rfl⟩
    · rw [List.filter_cons, if_neg (by simpa using hresp)] at hw
      exact ih _ w hw hp i r hget hrt

/-- C1: for a response whose merged window frame is non-empty (the code's
"match found" condition at line 161, i.e. at least two selected samples),
the selected joint samples are exactly those of the participant's frame
with `start_time <= utcTime <= response_time`, both endpoints inclusive,
and the value written onto each matching response row's
`jointHeadDisplacement` (resp. `jointTorsoDisplacement`) column is the
arithmetic mean of the per-consecutive-pair Euclidean head (resp. torso)
displacements over the selected samples. -/
theorem C1_window_selection_and_mean (joint_df : List Aligner.JointSample)
    (resp : Aligner.Response) (table : List Aligner.Response)
    (hp : Aligner.pairTable (Aligner.windowSelect joint_df
      (Aligner.responseStartTime resp.utcTime resp.reactionTime) resp.utcTime) ≠ []) :
    (∀ s : Aligner.JointSample,
        s ∈ Aligner.windowSelect joint_df
            (Aligner.responseStartTime resp.utcTime resp.reactionTime) resp.utcTime
          ↔ s ∈ joint_df
            ∧ Aligner.responseStartTime resp.utcTime resp.reactionTime ≤ s.utcTime
            ∧ s.utcTime ≤ resp.utcTime)
    ∧ (∀ r ∈ Aligner.processResponse joint_df resp table, r.utcTime = resp.utcTime →
        r.jointHeadDisplacement
          = listMean (consecDists ((Aligner.windowSelect joint_df
              (Aligner.responseStartTime resp.utcTime resp.reactionTime)
                resp.utcTime).map Aligner.JointSample.head))
        ∧ r.jointTorsoDisplacement
          = listMean (consecDists ((Aligner.windowSelect joint_df
              (Aligner.responseStartTime resp.utcTime resp.reactionTime)
                resp.utcTime).map Aligner.JointSample.torso))) := by
  have hagg_head : Aligner.headAggregate joint_df resp
      = listMean (consecDists ((Aligner.windowSelect joint_df
          (Aligner.responseStartTime resp.utcTime resp.reactionTime)
            resp.utcTime).map Aligner.JointSample.head)) := by
    unfold Aligner.headAggregate
    exact congrArg listMean (zip_tail_dists_eq_consecDists Aligner.JointSample.head _)
  have hagg_torso : Aligner.torsoAggregate joint_df resp
      = listMean (consecDists ((Aligner.windowSelect joint_df
          (Aligner.responseStartTime resp.utcTime resp.reactionTime)
            resp.utcTime).map Aligner.JointSample.torso)) := by
    unfold Aligner.torsoAggregate
    exact congrArg listMean (zip_tail_dists_eq_consecDists Aligner.JointSample.torso _)
  constructor
  · intro s
    simp [Aligner.windowSelect, List.mem_filter]
  · intro r hr hrt
    unfold Aligner.processResponse at hr
    dsimp only at hr
    rw [if_neg (fun h => hp (List.length_eq_zero.mp h))] at hr
    obtain ⟨a, ha, rfl⟩ := List.mem_map.mp hr
    by_cases hat : a.utcTime = resp.utcTime
    · rw [if_pos hat]
      exact ⟨hagg_head, hagg_torso⟩
    · rw [if_neg hat] at hrt
      exact absurd hrt hat

/-- C1 witness: a concrete response at `utcTime = 10` with reaction time 1
and three in-window joint samples. -/
theorem C1_window_selection_and_mean_witness :
    Aligner.pairTable (Aligner.windowSelect c1Joints
      (Aligner.responseStartTime c1Resp.utcTime c1Resp.reactionTime) c1Resp.utcTime) ≠ []
    ∧ ((∀ s : Aligner.JointSample,
        s ∈ Aligner.windowSelect c1Joints
            (Aligner.responseStartTime c1Resp.utcTime c1Resp.reactionTime) c1Resp.utcTime
          ↔ s ∈ c1Joints
            ∧ Aligner.responseStartTime c1Resp.utcTime c1Resp.reactionTime ≤ s.utcTime
            ∧ s.utcTime ≤ c1Resp.utcTime)
      ∧ (∀ r ∈ Aligner.processResponse c1Joints c1Resp [c1Resp],
          r.utcTime = c1Resp.utcTime →
          r.jointHeadDisplacement
            = listMean (consecDists ((Aligner.windowSelect c1Joints
                (Aligner.responseStartTime c1Resp.utcTime c1Resp.reactionTime)
                  c1Resp.utcTime).map Aligner.JointSample.head))
          ∧ r.jointTorsoDisplacement
            = listMean (consecDists ((Aligner.windowSelect c1Joints
                (Aligner.responseStartTime c1Resp.utcTime c1Resp.reactionTime)
                  c1Resp.utcTime).map Aligner.JointSample.torso)))) :=
  ⟨by
    rw [show Aligner.responseStartTime c1Resp.utcTime c1Resp.reactionTime = 8 from by
      norm_num [Aligner.responseStartTime, c1Resp, Aligner.initResponse]]
    decide,
   C1_window_selection_and_mean c1Joints c1Resp [c1Resp] (by
    rw [show Aligner.responseStartTime c1Resp.utcTime c1Resp.reactionTime = 8 from by
      norm_num [Aligner.responseStartTime, c1Resp, Aligner.initResponse]]
    decide)⟩

/-- C3, counterexample: the claim says a zero-match response row carries a
missing aggregate and is removed from the final output by a terminal
missing-value drop.  Running the full alignment pass on a table whose only
response matches zero joint samples, the row is still present in the final
output and both its displacement columns hold the numeric initialisation
value `0.0`, not a missing value; the script has no terminal row drop. -/
theorem C3_zero_match_counterexample :
    (Aligner.extract_response_joint_displacements c3Joints [c3Raw]).map
      (fun r => (r.utcTime, r.jointHeadDisplacement, r.jointTorsoDisplacement))
      = [(100, 0, 0)] := by
  have hsel : Aligner.windowSelect (c3Joints (Aligner.initResponse c3Raw).participant)
      (Aligner.responseStartTime (Aligner.initResponse c3Raw).utcTime
        (Aligner.initResponse c3Raw).reactionTime)
      (Aligner.initResponse c3Raw).utcTime = [] := by
    rw [show Aligner.responseStartTime (Aligner.initResponse c3Raw).utcTime
        (Aligner.initResponse c3Raw).reactionTime = 98 from by
      norm_num [Aligner.responseStartTime, c3Raw, Aligner.initResponse]]
    decide
  show (Aligner.processResponse (c3Joints (Aligner.initResponse c3Raw).participant)
      (Aligner.initResponse c3Raw) [Aligner.initResponse c3Raw]).map
      (fun r => (r.utcTime, r.jointHeadDisplacement, r.jointTorsoDisplacement))
      = [(100, 0, 0)]
  rw [processResponse_emptySelect _ _ _ hsel]
  rfl

/-- C3, amended: the displacement columns are initialised to the number
`0.0`; a response whose window matches zero joint samples is written
nothing (its row keeps the `0.0` placeholder); and the alignment pass never
removes rows, so such rows appear unchanged in the final output. -/
theorem C3_zero_match_amended :
    (∀ raw : Aligner.RawResponse,
        (Aligner.initResponse raw).jointHeadDisplacement = 0
        ∧ (Aligner.initResponse raw).jointTorsoDisplacement = 0)
    ∧ (∀ (j : List Aligner.JointSample) (resp : Aligner.Response)
        (T : List Aligner.Response),
        Aligner.windowSelect j
            (Aligner.responseStartTime resp.utcTime resp.reactionTime) resp.utcTime = [] →
        Aligner.processResponse j resp T = T)
    ∧ (∀ (g : ℕ → List Aligner.JointSample) (raws : List Aligner.RawResponse),
        (Aligner.extract_response_joint_displacements g raws).length = raws.length) := by
  refine ⟨fun raw => ⟨rfl, rfl⟩, ?_, ?_⟩
  · intro j resp T hsel
    exact processResponse_emptySelect j resp T hsel
  · intro g raws
    show ((raws.map Aligner.initResponse).foldl (Aligner.alignStep g)
        (raws.map Aligner.initResponse)).length = raws.length
    rw [foldl_align_length g, List.length_map]

/-- C3 witness: on the concrete zero-match scenario the window is empty,
the placeholder is the number `0.0`, the write step leaves the table
unchanged, and the full pass keeps the row. -/
theorem C3_zero_match_amended_witness :
    Aligner.windowSelect (c3Joints 1)
        (Aligner.responseStartTime (Aligner.initResponse c3Raw).utcTime
          (Aligner.initResponse c3Raw).reactionTime)
        (Aligner.initResponse c3Raw).utcTime = []
    ∧ (Aligner.initResponse c3Raw).jointHeadDisplacement = 0
    ∧ Aligner.processResponse (c3Joints 1) (Aligner.initResponse c3Raw)
        [Aligner.initResponse c3Raw] = [Aligner.initResponse c3Raw]
    ∧ (Aligner.extract_response_joint_displacements c3Joints [c3Raw]).length = 1 := by
  have hsel : Aligner.windowSelect (c3Joints 1)
      (Aligner.responseStartTime (Aligner.initResponse c3Raw).utcTime
        (Aligner.initResponse c3Raw).reactionTime)
      (Aligner.initResponse c3Raw).utcTime = [] := by
    rw [show Aligner.responseStartTime (Aligner.initResponse c3Raw).utcTime
        (Aligner.initResponse c3Raw).reactionTime = 98 from by
      norm_num [Aligner.responseStartTime, c3Raw, Aligner.initResponse]]
    decide
  exact ⟨hsel, (C3_zero_match_amended.1 c3Raw).1,
    C3_zero_match_amended.2.1 (c3Joints 1) (Aligner.initResponse c3Raw)
      [Aligner.initResponse c3Raw] hsel,
    C3_zero_match_amended.2.2 c3Joints [c3Raw]⟩

/-- C10: the write-back is keyed solely by `utcTime` equality on the
response table, not by participant.  (i) Single step: processing any
response whose merged window frame is non-empty writes that response's
aggregates onto *every* table row sharing its `utcTime`, regardless of
those rows' participants.  (ii) Full pass: if the last response row
carrying timestamp `t` in processing order has a non-empty merged window
frame, then after the full pass every output row with `utcTime = t` holds
exactly that last-processed row's aggregates. -/
theorem C10_timestamp_keyed_writeback (getJoints : ℕ → List Aligner.JointSample)
    (raws : List Aligner.RawResponse) (t : ℚ) (w : Aligner.Response)
    (hw : ((raws.map Aligner.initResponse).filter
      (fun r => decide (r.utcTime = t))).getLast? = some w)
    (hp : Aligner.pairTable (Aligner.windowSelect (getJoints w.participant)
      (Aligner.responseStartTime w.utcTime w.reactionTime) w.utcTime) ≠ []) :
    (∀ (resp : Aligner.Response) (T : List Aligner.Response) (i : ℕ)
        (r : Aligner.Response),
        resp.utcTime = t →
        Aligner.pairTable (Aligner.windowSelect (getJoints resp.participant)
          (Aligner.responseStartTime resp.utcTime resp.reactionTime)
            resp.utcTime) ≠ [] →
        T.get? i = some r → r.utcTime = t →
        (Aligner.processResponse (getJoints resp.participant) resp T).get? i
          = some (Aligner.overwrite (getJoints resp.participant) resp r))
    ∧ (∀ i r,
        (Aligner.extract_response_joint_displacements getJoints raws).get? i = some r →
        r.utcTime = t →
        r.jointHeadDisplacement = Aligner.headAggregate (getJoints w.participant) w
        ∧ r.jointTorsoDisplacement
          = Aligner.torsoAggregate (getJoints w.participant) w) := by
  constructor
  · intro resp T i r hrespt hpr hT hrT
    have h := processResponse_write (getJoints resp.participant) resp T i r hpr hT
    rw [if_pos (by rw [hrT, hrespt])] at h
    exact h
  · intro i r hget hrt
    have hget' : ((raws.map Aligner.initResponse).foldl (Aligner.alignStep getJoints)
        (raws.map Aligner.initResponse)).get? i = some r := hget
    exact foldl_align_lastWriter getJoints t (raws.map Aligner.initResponse)
      (raws.map Aligner.initResponse) w hw hp i r hget' hrt

/-- C10 witness: two responses of different participants share
`utcTime = 10`; the last-processed one (participant 2) has a two-sample
window, and every output row at that timestamp holds its aggregates. -/
theorem C10_timestamp_keyed_writeback_witness :
    ((c10Raws.map Aligner.initResponse).filter
        (fun r => decide (r.utcTime = 10))).getLast? = some c10W
    ∧ Aligner.pairTable (Aligner.windowSelect (c10Joints c10W.participant)
        (Aligner.responseStartTime c10W.utcTime c10W.reactionTime)
          c10W.utcTime) ≠ []
    ∧ (∀ i r,
        (Aligner.extract_response_joint_displacements c10Joints c10Raws).get? i
          = some r →
        r.utcTime = 10 →
        r.jointHeadDisplacement = Aligner.headAggregate (c10Joints c10W.participant) c10W
        ∧ r.jointTorsoDisplacement
          = Aligner.torsoAggregate (c10Joints c10W.participant) c10W) :=
  ⟨rfl,
   by
    rw [show Aligner.responseStartTime c10W.utcTime c10W.reactionTime = 8 from by
      norm_num [Aligner.responseStartTime, c10W, Aligner.initResponse]]
    decide,
   (C10_timestamp_keyed_writeback c10Joints c10Raws 10 c10W rfl (by
    rw [show Aligner.responseStartTime c10W.utcTime c10W.reactionTime = 8 from by
      norm_num [Aligner.responseStartTime, c10W, Aligner.initResponse]]
    decide)).2⟩

/-- C8 witness: the reduction theorem applied at a concrete file and a
concrete series, with the inner hypotheses discharged. -/
theorem C8_summary_reductions_witness :
    Summary.seriesMin [(2 : ℝ), 5] = some 2
    ∧ ((2 : ℝ) ∈ [(2 : ℝ), 5] ∧ ∀ x ∈ [(2 : ℝ), 5], (2 : ℝ) ≤ x)
    ∧ (Summary.extract_subject_summary 7 c8Rows).minHeadDisplacement
        = Summary.seriesMin (consecDists (c8Rows.map Summary.SkelRow.head)) := by
  have hmin : Summary.seriesMin [(2 : ℝ), 5] = some 2 := by
    simp only [Summary.seriesMin, List.foldl_cons, List.foldl_nil]
    norm_num [min_def]
  exact ⟨hmin, ((C8_summary_reductions 7 c8Rows).2 [(2 : ℝ), 5]).1 2 hmin,
    ((C8_summary_reductions 7 c8Rows).1).1⟩

/-- C9 witness: the migration theorem applied to `c9Table`, all four
hypotheses discharged by computation. -/
theorem C9_fix_timestamps_witness :
    ("utcMillisecondsSinceEpoch" ∈ c9Table.header
      ∧ "utcMicrosecondsSinceEpoch" ∉ c9Table.header
      ∧ c9Table.header.Nodup
      ∧ ∀ r ∈ c9Table.rows, r.length = c9Table.header.length)
    ∧ (((FixTs.fix_utc_timestamps c9Table).header.length = c9Table.header.length
      ∧ (FixTs.fix_utc_timestamps c9Table).header.get?
            (c9Table.header.indexOf "utcMillisecondsSinceEpoch")
          = some "utcMicrosecondsSinceEpoch"
      ∧ ∀ k, k ≠ c9Table.header.indexOf "utcMillisecondsSinceEpoch" →
          (FixTs.fix_utc_timestamps c9Table).header.get? k = c9Table.header.get? k)
    ∧ ((FixTs.fix_utc_timestamps c9Table).rows.length = c9Table.rows.length
      ∧ ∀ i r r', c9Table.rows.get? i = some r →
          (FixTs.fix_utc_timestamps c9Table).rows.get? i = some r' →
          (r'.get? (c9Table.header.indexOf "utcMillisecondsSinceEpoch")
              = (r.get? (c9Table.header.indexOf "utcMillisecondsSinceEpoch")).map
                  (fun v => v * 1000)
            ∧ ∀ k, k ≠ c9Table.header.indexOf "utcMillisecondsSinceEpoch" →
                r'.get? k = r.get? k))) :=
  ⟨⟨by decide, by decide, by decide, by decide⟩,
   C9_fix_timestamps c9Table (by decide) (by decide) (by decide) (by decide)⟩
